import Mathlib

/-!
Shallow embedding of `src/terminal.rs` from the txtdt repository, together with
theorems settling the frozen claims about it.

Conventions used throughout:
* machine integers are modelled as `Nat` (termios flag words are `u32`; bit
  clearing is modelled with an explicit 32-bit complement);
* fallible Rust code returning `io::Result` is modelled with `Except Unit`
  (the only error ever constructed carries the same fixed message);
* a Rust `panic` (out-of-range slice, `expect`) is a distinct outcome of the
  modelled function, never an `Except` error;
* the byte stream behind `io::stdin()` is an explicit list argument that is
  threaded through each definition.
-/

abbrev Byte := Nat

/-! ### Attribute controller: `Termios` and `enable_raw_mode` -/

/-- Linux (x86_64) value of the `libc::ECHO` local flag used by the source. -/
def ECHO : Nat := 8

/-- Linux value of `libc::ICANON`. -/
def ICANON : Nat := 2

/-- Linux value of `libc::ISIG`. -/
def ISIG : Nat := 1

/-- Linux value of `libc::IEXTEN`. -/
def IEXTEN : Nat := 32768

/-- Linux value of `libc::IXON`. -/
def IXON : Nat := 1024

/-- Linux value of `libc::ICRNL`. -/
def ICRNL : Nat := 256

/-- Linux value of `libc::BRKINT`. -/
def BRKINT : Nat := 2

/-- Linux value of `libc::INPCK`. -/
def INPCK : Nat := 16

/-- Linux value of `libc::ISTRIP`. -/
def ISTRIP : Nat := 32

/-- Linux value of `libc::OPOST`. -/
def OPOST : Nat := 1

/-- Linux value of `libc::CS8` (an octal `0o60` bit pattern inside the
`CSIZE` field of `c_cflag`). -/
def CS8 : Nat := 48

/-- Linux value of the `libc::VMIN` index into `c_cc`. -/
def VMIN : Nat := 6

/-- Linux value of the `libc::VTIME` index into `c_cc`. -/
def VTIME : Nat := 5

/-- Complement of a mask inside a 32-bit word: for a mask `m < 2^32` the
subtraction `4294967295 - m` flips exactly the 32 low bits, which is what the
Rust `!mask` on a `u32` computes. -/
def compl32 (m : Nat) : Nat := 4294967295 - m

/-- Model of `libc::termios`: the four flag words (each a `u32`, modelled as
`Nat`) and the control-character array `c_cc`, modelled as an index function
`Nat → Nat`. -/
structure Termios where
  c_iflag : Nat
  c_oflag : Nat
  c_cflag : Nat
  c_lflag : Nat
  c_cc : Nat → Nat

/-- Array write `cc[i] = v`, modelled pointwise. -/
def setIdx (cc : Nat → Nat) (i v : Nat) : Nat → Nat :=
  fun j => if j = i then v else cc j

/-- Translation of `Termios::enable_raw_mode` (terminal.rs lines 42 to 50).
Statement by statement:
`c_lflag &= !(ECHO | ICANON | ISIG | IEXTEN)`;
`c_iflag &= !(IXON | ICRNL | BRKINT | INPCK | ISTRIP)`;
`c_oflag &= !(OPOST)`;
`c_oflag |= CS8` (the source really ORs `CS8` into the OUTPUT flag word, not
into `c_cflag`; `c_cflag` is left untouched);
`c_cc[VMIN] = 0`; `c_cc[VTIME] = 1`.
The final `set_attr` call of the source applies exactly the returned attribute
set to the OS. -/
def enable_raw_mode (t : Termios) : Termios :=
  { t with
    c_lflag := t.c_lflag &&& compl32 (ECHO ||| ICANON ||| ISIG ||| IEXTEN)
    c_iflag := t.c_iflag &&& compl32 (IXON ||| ICRNL ||| BRKINT ||| INPCK ||| ISTRIP)
    c_oflag := (t.c_oflag &&& compl32 OPOST) ||| CS8
    c_cc := setIdx (setIdx t.c_cc VMIN 0) VTIME 1 }

/-- A concrete captured attribute set used to evaluate `enable_raw_mode`:
every input and local flag bit set, output flags all set, control flags `CS7`
(value 32, so the `CS8` bits are NOT all present), and every `c_cc` slot 7. -/
def termiosCS7 : Termios :=
  { c_iflag := 4294967295
    c_oflag := 4294967295
    c_cflag := 32
    c_lflag := 4294967295
    c_cc := fun _ => 7 }

/-! ### Geometry resolver: `get_window_size` and `get_cursor_position` -/

/-- Error values carried by `io::Error` in the source; both geometry failures
use the same fixed message string. -/
inductive TermErr where
  | cantGetWinSize
  | cantGetAttrs
deriving DecidableEq

/-- Outcome of a geometry routine: a Rust panic (out-of-range slice), an
`io::Error`, or a `(rows, cols)` pair. -/
inductive WsResult where
  | panic
  | ioError (e : TermErr)
  | ok (dims : Nat × Nat)
deriving DecidableEq

/-- Translation of `cursor_buf[2..].split(|&c| c == b';')` on the byte level:
Rust slice `split` yields the maximal chunks between separator bytes and
yields one (empty) chunk for an empty slice. -/
def splitSemis : List Byte → List (List Byte)
  | [] => [[]]
  | c :: rest =>
    if c = 59 then [] :: splitSemis rest
    else
      match splitSemis rest with
      | [] => [[c]]
      | chunk :: chunks => (c :: chunk) :: chunks

/-- ASCII digit test used by the parse model. -/
def isDigitByte (b : Byte) : Bool := decide (48 ≤ b ∧ b ≤ 57)

/-- Model of `std::str::from_utf8(buf).ok()` composed with
`buf.parse::<usize>().ok()`: the composition accepts exactly an optional
leading plus sign (byte 43) followed by one or more ASCII digit bytes — any
such byte list is valid UTF-8, and any other byte list either fails UTF-8
decoding or fails integer parsing.  Numeric overflow of `usize` is not
modelled (values are unbounded `Nat`); no claim depends on it. -/
def parseChunk (bs : List Byte) : Option Nat :=
  let ds := if bs.head? = some 43 then bs.tail else bs
  if ds.isEmpty then none
  else if ds.all isDigitByte then
    some (ds.foldl (fun a b => a * 10 + (b - 48)) 0)
  else none

/-- Translation of `WinSize::get_cursor_position` (terminal.rs lines 73 to 93).
The `"\x1b[6n"` write and the `print!` are pure output and are not modelled.
`input` is the byte stream available on stdin.  The source collects
`io::stdin().bytes().take_while(|c| matches!(c, Ok(b'R')))` — bytes are taken
WHILE they equal the byte `R` (82) — and then evaluates `cursor_buf[2..]`,
which panics when fewer than 2 bytes were collected.  The final
`(dimensions[0], dimensions[1])` after the `len() != 2` test is rendered as a
two-element list pattern. -/
def get_cursor_position (input : List Byte) : WsResult :=
  let cursor_buf := input.takeWhile (fun c => c == 82)
  if cursor_buf.length < 2 then .panic
  else
    match (splitSemis (cursor_buf.drop 2)).filterMap parseChunk with
    | [r, c] => .ok (r, c)
    | _ => .ioError .cantGetWinSize

/-- Translation of `WinSize::get_window_size` (terminal.rs lines 59 to 71).
`ioctl` models the `TIOCGWINSZ` call: `none` is a `-1` return (the zeroed
`ws` is left untouched), `some (r, c)` a success that fills `ws_row = r`,
`ws_col = c` (both `u16` in the source, modelled as `Nat`).  `writeOk` models
`Terminal::write(botright) == botright.len()`.  On the fallback path the
source propagates a `get_cursor_position` failure with `?` but DISCARDS its
success value, and then returns the `ws` fields from the direct query on both
paths. -/
def get_window_size (ioctl : Option (Nat × Nat)) (writeOk : Bool)
    (input : List Byte) : WsResult :=
  let ws := ioctl.getD (0, 0)
  if ioctl = none ∨ ws.2 = 0 then
    if ¬ writeOk then .ioError .cantGetWinSize
    else
      match get_cursor_position input with
      | .panic => .panic
      | .ioError e => .ioError e
      | .ok _ => .ok ws
  else .ok ws

/-- The byte string `ESC [ 2 4 ; 8 0 R`, the well-formed cursor-position
reply `ESC[24;80R` used by the spec. -/
def escReply : List Byte := [27, 91, 50, 52, 59, 56, 48, 82]

/-! ### Key decoder: `Terminal::read_key` -/

/-- Source enum `Motion`. -/
inductive Motion where
  | Up
  | Down
  | Left
  | Right
  | PgUp
  | PgDn
  | Home
  | End
deriving DecidableEq

/-- Source enum `Key`. -/
inductive Key where
  | Printable (b : Byte)
  | Move (m : Motion)
  | Control (c : Char)
  | Delete
  | Backspace
  | Newline
  | Escape
deriving DecidableEq

/-- Outcome of one call to the `read_key` closure
`|| io::stdin().bytes().next()`: `timeout` is a read that returned no byte
(`None`, produced both by a `VTIME` timeout and at end of file), `data b` a
byte, `rerr` a read error (`Some(Err(..))`). -/
inductive ReadRes where
  | timeout
  | data (b : Byte)
  | rerr
deriving DecidableEq

/-- The stdin stream: the results of successive single-byte reads, in order.
When the list is exhausted the stream has ended, and every further read
returns no byte (exactly like a Unix read at end of file). -/
abbrev Input := List ReadRes

/-- The source-byte poll loop
`repeat_with(read_key).skip_while(|c| c.is_none()).flatten().next().unwrap()?`:
reads are retried past timeouts until a byte or a read error arrives.  If the
stream ends first, every further read keeps returning no byte and the
`skip_while` never finishes: the loop runs forever, which is modelled by
`none`. -/
def acquire : Input → Option ((Except Unit Byte) × Input)
  | [] => none
  | .timeout :: r => acquire r
  | .data b :: r => some (.ok b, r)
  | .rerr :: r => some (.error (), r)

/-- The source byte of `read_key` (terminal.rs lines 173 to 181): pop the top
of `key_buffer` if non-empty, else run the poll loop.  The buffer is held in
consumption order (head = top of the Rust `Vec`, the next byte popped). -/
def popOrRead (buf : List Byte) (inp : Input) :
    Option ((Except Unit Byte) × List Byte × Input) :=
  match buf with
  | k :: rest => some (.ok k, rest, inp)
  | [] =>
    match acquire inp with
    | none => none
    | some (r, inp2) => some (r, [], inp2)

/-- The escape lookahead window (terminal.rs lines 184 to 192):
`key_buffer.iter().rev()` PEEKS the remaining buffer in consumption order
without removing anything, is chained with fresh single reads (a read that
returns no byte fills the slot with `none`; it is not retried), `take(3)`
keeps three slots, and `collect::<Result<_>>` aborts at the first read error,
leaving the stream right after the failed read.  The first component is the
collected slot list, the second the remaining stream. -/
def fillSlots : Nat → List Byte → Input → (Except Unit (List (Option Byte))) × Input
  | 0, _, inp => (.ok [], inp)
  | n + 1, b :: rest, inp =>
    match fillSlots n rest inp with
    | (.ok s, inp2) => (.ok (some b :: s), inp2)
    | (.error e, inp2) => (.error e, inp2)
  | n + 1, [], [] =>
    match fillSlots n [] [] with
    | (.ok s, inp2) => (.ok (none :: s), inp2)
    | (.error e, inp2) => (.error e, inp2)
  | n + 1, [], .timeout :: r =>
    match fillSlots n [] r with
    | (.ok s, inp2) => (.ok (none :: s), inp2)
    | (.error e, inp2) => (.error e, inp2)
  | n + 1, [], .data b :: r =>
    match fillSlots n [] r with
    | (.ok s, inp2) => (.ok (some b :: s), inp2)
    | (.error e, inp2) => (.error e, inp2)
  | _ + 1, [], .rerr :: r => (.error (), r)

/-- The `match seq.as_slice()` table of `read_key` (terminal.rs lines 194 to
216), clause for clause and in source order; `none` is the final `_` arm
(the unrecognized-sequence fallback).  Byte values: `[` 91, `A` 65, `B` 66,
`C` 67, `D` 68, `O` 79, `H` 72, `F` 70, `~` 126, digits `1`..`8` are 49..56. -/
def escMatch : List (Option Byte) → Option (Key × Option Byte)
  | [none, none, none] => some (.Escape, none)
  | [some 91, some 65, p] => some (.Move .Up, p)
  | [some 91, some 66, p] => some (.Move .Down, p)
  | [some 91, some 67, p] => some (.Move .Right, p)
  | [some 91, some 68, p] => some (.Move .Left, p)
  | [some 91, some 53, some 126] => some (.Move .PgUp, none)
  | [some 91, some 54, some 126] => some (.Move .PgDn, none)
  | [some 91, some 49, some 126] => some (.Move .Home, none)
  | [some 91, some 55, some 126] => some (.Move .Home, none)
  | [some 91, some 79, some 72] => some (.Move .Home, none)
  | [some 91, some 72, p] => some (.Move .Home, p)
  | [some 91, some 52, some 126] => some (.Move .End, none)
  | [some 91, some 56, some 126] => some (.Move .End, none)
  | [some 91, some 79, some 70] => some (.Move .End, none)
  | [some 91, some 70, p] => some (.Move .End, p)
  | [some 91, some 51, some 126] => some (.Delete, none)
  | _ => none

/-- The non-escape byte mapping of `read_key` (terminal.rs lines 229 to 236),
arm for arm: `127`, `b'\r'` (13), `key < 32`, catch-all. -/
def decodeByte (b : Byte) : Key :=
  if b = 127 then .Backspace
  else if b = 13 then .Newline
  else if b < 32 then .Control (Char.ofNat (b + 64))
  else .Printable b

/-- The `if let Some(key) = pending { self.key_buffer.push(key) }` step
(terminal.rs lines 224 to 226): a push lands on top of the stack, the head in
consumption order. -/
def pushPending (p : Option Byte) (buf : List Byte) : List Byte :=
  match p with
  | some b => b :: buf
  | none => buf

/-- Translation of `Terminal::read_key` (terminal.rs lines 171 to 237), with
an explicit fuel bound on the recursion depth of the unrecognized-sequence
fallback (the source recursion always terminates because each round consumes
at least one byte from the buffer or the stream, so the wrapper `readKey`
passes a fuel that can never run out).  Result: `none` when the source-byte
poll loop never returns (the stream ended with no byte available);
`some (.error e, buf, inp)` when a read failed, with the buffer and stream as
the source leaves them; `some (.ok k, buf, inp)` for a decoded key.  On a
table match the peeked buffer `buf1` is left intact and only `pending` is
pushed; the fallback arm replaces the buffer with the successfully read
lookahead bytes (`seq.iter().rev().filter_map` after `clear`, which in
consumption order is exactly the somes of `seq` in order) and recurses. -/
def readKeyF : Nat → List Byte → Input → Option ((Except Unit Key) × List Byte × Input)
  | 0, _, _ => none
  | f + 1, buf, inp =>
    match popOrRead buf inp with
    | none => none
    | some (.error e, buf1, inp1) => some (.error e, buf1, inp1)
    | some (.ok k, buf1, inp1) =>
      if k = 27 then
        match fillSlots 3 buf1 inp1 with
        | (.error e, inp2) => some (.error e, buf1, inp2)
        | (.ok seq, inp2) =>
          match escMatch seq with
          | some (key, pending) => some (.ok key, pushPending pending buf1, inp2)
          | none => readKeyF f (seq.filterMap id) inp2
      else
        some (.ok (decodeByte k), buf1, inp1)

/-- One call to `Terminal::read_key` on buffer `buf` and stream `inp`.  The
fuel `buf.length + inp.length + 1` dominates the fallback recursion: every
recursive round strictly decreases the sum of buffer and stream lengths. -/
def readKey (buf : List Byte) (inp : Input) :
    Option ((Except Unit Key) × List Byte × Input) :=
  readKeyF (buf.length + inp.length + 1) buf inp

/-- The keys produced by up to `n` successive `read_key` calls, stopping at a
read error or at a non-returning call. -/
def runKeys : Nat → List Byte → Input → List Key
  | 0, _, _ => []
  | n + 1, buf, inp =>
    match readKey buf inp with
    | some (.ok k, buf2, inp2) => k :: runKeys n buf2 inp2
    | _ => []

/-! ### The `Terminal` facade, its operations and its destructor -/

/-- Source struct `Terminal` (terminal.rs lines 117 to 124). -/
structure Terminal where
  orig_termios : Termios
  curr_termios : Termios
  num_rows : Nat
  num_cols : Nat
  term_buffer : String
  key_buffer : List Byte

/-- `Terminal::new` after its two captures: geometry `(rows, cols)` from
`get_window_size` and the attribute snapshot from `Termios::get_attr`;
`curr_termios` starts as a copy of `orig_termios`. -/
def Terminal.new (attrs : Termios) (rows cols : Nat) : Terminal :=
  { orig_termios := attrs
    curr_termios := attrs
    num_rows := rows
    num_cols := cols
    term_buffer := ""
    key_buffer := [] }

/-- The operations a caller can run on a `Terminal` between construction and
destruction. -/
inductive TermOp where
  | make_raw
  | read_key
  | append (s : String)
  | flush
  | rows
  | cols

/-- One operation on the facade, with the stdin stream threaded alongside.
`make_raw` rewrites only `curr_termios` (terminal.rs lines 140 to 142);
`read_key` advances the pushback buffer and the stream as `readKey` does
(on a read error or a non-returning poll the attribute fields are equally
untouched); `append` and `flush` touch only `term_buffer`; `rows` and `cols`
are reads. -/
def stepOp : Terminal × Input → TermOp → Terminal × Input
  | (t, inp), .make_raw => ({ t with curr_termios := enable_raw_mode t.curr_termios }, inp)
  | (t, inp), .read_key =>
    match readKey t.key_buffer inp with
    | some (_, buf2, inp2) => ({ t with key_buffer := buf2 }, inp2)
    | none => (t, inp)
  | (t, inp), .append s => ({ t with term_buffer := t.term_buffer ++ s }, inp)
  | (t, inp), .flush => ({ t with term_buffer := "" }, inp)
  | (t, inp), .rows => (t, inp)
  | (t, inp), .cols => (t, inp)

/-- A whole session: the operations run left to right. -/
def runOps (s : Terminal × Input) (ops : List TermOp) : Terminal × Input :=
  ops.foldl stepOp s

/-- The `Drop` impl (terminal.rs lines 240 to 248): after the clear-screen
and cursor-home writes, `orig_termios.set_attr()` is called and its failure
hits `.expect(..)`.  `setOk` models whether `tcsetattr` succeeds; the result
is the attribute set handed to the OS, and `none` is the `expect` panic — the
failure is fatal, not ignored. -/
def dropTerminal (t : Terminal) (setOk : Bool) : Option Termios :=
  if setOk then some t.orig_termios else none

/-! ### Helper lemmas -/

/-- Splitting a separator-free byte list yields that list as the single
chunk. -/
lemma splitSemis_all82 (l : List Byte) (h : ∀ b ∈ l, b = 82) :
    splitSemis l = [l] := by
  induction l with
  | nil => rfl
  | cons c rest ih =>
    have hc : c = 82 := h c (List.mem_cons_self c rest)
    have hrest : ∀ b ∈ rest, b = 82 := fun b hb => h b (List.mem_cons_of_mem c hb)
    subst hc
    rw [splitSemis, if_neg (by decide : ¬((82 : Byte) = 59)), ih hrest]

/-- A chunk consisting of `R` bytes never parses as an integer. -/
lemma parseChunk_all82 (l : List Byte) (h : ∀ b ∈ l, b = 82) :
    parseChunk l = none := by
  cases l with
  | nil => rfl
  | cons b t =>
    have hb : b = 82 := h b (List.mem_cons_self b t)
    subst hb
    simp [parseChunk, isDigitByte]

/-- The poll loop ignores any leading run of timeouts. -/
lemma acquire_replicate (n : Nat) (l : Input) :
    acquire (List.replicate n .timeout ++ l) = acquire l := by
  induction n with
  | zero => rfl
  | succ n ih => simpa [List.replicate_succ, acquire] using ih

/-- A stream of timeouts only never delivers a byte: the poll loop spins
forever. -/
lemma acquire_replicate_none (n : Nat) :
    acquire (List.replicate n .timeout) = none := by
  simpa using acquire_replicate n []

/-- Unfolding of `read_key` for an escape byte popped from the buffer whose
lookahead matches the table: the peeked bytes `buf` all stay, only `pending`
is pushed. -/
lemma readKeyF_esc_match (f : Nat) (buf : List Byte) (inp : Input)
    (seq : List (Option Byte)) (inp2 : Input) (key : Key) (p : Option Byte)
    (h1 : fillSlots 3 buf inp = (.ok seq, inp2))
    (h2 : escMatch seq = some (key, p)) :
    readKeyF (f + 1) (27 :: buf) inp = some (.ok key, pushPending p buf, inp2) := by
  simp [readKeyF, popOrRead, h1, h2]

/-- No single step of the facade rewrites the captured original attributes. -/
lemma stepOp_orig (s : Terminal × Input) (op : TermOp) :
    (stepOp s op).1.orig_termios = s.1.orig_termios := by
  obtain ⟨t, inp⟩ := s
  cases op with
  | read_key =>
    simp only [stepOp]
    cases readKey t.key_buffer inp with
    | none => rfl
    | some v => obtain ⟨e, buf2, inp2⟩ := v; rfl
  | make_raw => rfl
  | append s => rfl
  | flush => rfl
  | rows => rfl
  | cols => rfl

/-- No session of facade operations rewrites the captured original
attributes. -/
lemma runOps_orig (ops : List TermOp) (s : Terminal × Input) :
    (runOps s ops).1.orig_termios = s.1.orig_termios := by
  induction ops generalizing s with
  | nil => rfl
  | cons op ops ih =>
    simpa [runOps, List.foldl_cons] using (ih (stepOp s op)).trans (stepOp_orig s op)

/-! ### Claim theorems -/

/-- C1: the first half of the claim holds — a direct query with non-zero
columns is returned as is, without the probe path (here even a failing probe
write, `writeOk = false`, is never reached) — but the fallback half fails:
with a degenerate direct query and the well-formed reply `ESC[24;80R` the
code panics inside `get_cursor_position` instead of returning `(24, 80)`;
and whenever `resolve` does return a pair, that pair is always the direct
query value `io.getD (0, 0)`, never one parsed from the reply (the probe
result is discarded). -/
theorem C1_resolve_discards_probe (io : Option (Nat × Nat)) (w : Bool)
    (i : List Byte) (d : Nat × Nat) (h : get_window_size io w i = .ok d) :
    get_window_size (some (40, 120)) false [] = .ok (40, 120) ∧
    get_window_size (some (0, 0)) true escReply = .panic ∧
    get_window_size none true escReply = .panic ∧
    d = io.getD (0, 0) := by
  refine ⟨rfl, rfl, rfl, ?_⟩
  simp only [get_window_size] at h
  by_cases hg : io = none ∨ (io.getD (0, 0)).2 = 0
  · rw [if_pos hg] at h
    by_cases hw : w
    · simp only [hw, not_true_eq_false, if_neg] at h
      cases hgc : get_cursor_position i with
      | panic => rw [hgc] at h; exact absurd h (by simp)
      | ioError e => rw [hgc] at h; exact absurd h (by simp)
      | ok v => rw [hgc] at h; simpa using h.symm
    · simp only [hw] at h
      exact absurd h (by simp)
  · rw [if_neg hg] at h
    simpa using h.symm

/-- C1 witness: instantiating the always-direct-value fact at a successful
direct query. -/
theorem C1_resolve_discards_probe_witness :
    get_window_size (some (40, 120)) false [] = .ok (40, 120) ∧
    get_window_size (some (0, 0)) true escReply = .panic ∧
    get_window_size none true escReply = .panic ∧
    ((40, 120) : Nat × Nat) = (some ((40, 120) : Nat × Nat)).getD (0, 0) :=
  C1_resolve_discards_probe (some (40, 120)) false [] (40, 120) rfl

/-- C3: the cursor-position query does NOT read until a terminator `R`: it
collects bytes only while they equal `R`, so on the well-formed reply
`ESC[24;80R` it collects nothing and panics on the out-of-range slice
`cursor_buf[2..]`; in fact for every input it either panics or returns the
window-size `IoError` — it can never return a parsed pair, because the
collected buffer is a run of `R` bytes in which no integer field exists. -/
theorem C3_cursor_query_inverted (input : List Byte) :
    get_cursor_position escReply = .panic ∧
    (get_cursor_position input = .panic ∨
      get_cursor_position input = .ioError .cantGetWinSize) := by
  refine ⟨rfl, ?_⟩
  by_cases hlen : (input.takeWhile (fun c => c == 82)).length < 2
  · left
    simp only [get_cursor_position]
    rw [if_pos hlen]
  · right
    have hall : ∀ b ∈ (input.takeWhile (fun c => c == 82)).drop 2, b = 82 := by
      intro b hb
      have := List.mem_takeWhile_imp (List.mem_of_mem_drop hb)
      simpa using this
    simp only [get_cursor_position]
    rw [if_neg hlen, splitSemis_all82 _ hall]
    rw [List.filterMap_cons, parseChunk_all82 _ hall]
    rfl

/-- C3 witness: the general disjunction applied at the well-formed reply. -/
theorem C3_cursor_query_inverted_witness :
    get_cursor_position escReply = .panic ∧
    (get_cursor_position escReply = .panic ∨
      get_cursor_position escReply = .ioError .cantGetWinSize) :=
  C3_cursor_query_inverted escReply

/-- C4: on any input stream whose first byte is not `R` (82) — in particular
the well-formed reply `ESC[24;80R` — the collected buffer is empty, shorter
than the 2 bytes the slice `cursor_buf[2..]` needs, and the function panics
instead of returning a `Result`; the same panic propagates through
`get_window_size` when the direct query is degenerate. -/
theorem C4_slice_panic (b : Byte) (rest : List Byte) (hb : b ≠ 82) :
    get_cursor_position (b :: rest) = .panic ∧
    get_window_size (some (0, 0)) true (b :: rest) = .panic := by
  have htw : List.takeWhile (fun c => c == 82) (b :: rest) = [] := by
    have hfalse : (b == 82) = false := by simpa using hb
    simp [List.takeWhile, hfalse]
  have h1 : get_cursor_position (b :: rest) = .panic := by
    simp only [get_cursor_position, htw]
    rfl
  refine ⟨h1, ?_⟩
  simp [get_window_size, h1]

/-- C4 witness: the panic at the well-formed reply `ESC[24;80R`, whose first
byte is the escape byte 27. -/
theorem C4_slice_panic_witness :
    get_cursor_position escReply = .panic ∧
    get_window_size (some (0, 0)) true escReply = .panic :=
  C4_slice_panic 27 [91, 50, 52, 59, 56, 48, 82] (by decide)

/-- C5: from an empty pushback buffer, feeding exactly ESC plus each listed
continuation yields exactly the listed `Key`, with the whole input consumed
and the buffer left empty (no pending byte arises when exactly the listed
bytes are fed); and a bare ESC before end of input yields `Escape` with an
empty buffer. -/
theorem C5_table_exact :
    readKey [] [.data 27, .data 91, .data 65] = some (.ok (.Move .Up), [], []) ∧
    readKey [] [.data 27, .data 91, .data 66] = some (.ok (.Move .Down), [], []) ∧
    readKey [] [.data 27, .data 91, .data 67] = some (.ok (.Move .Right), [], []) ∧
    readKey [] [.data 27, .data 91, .data 68] = some (.ok (.Move .Left), [], []) ∧
    readKey [] [.data 27, .data 91, .data 53, .data 126] = some (.ok (.Move .PgUp), [], []) ∧
    readKey [] [.data 27, .data 91, .data 54, .data 126] = some (.ok (.Move .PgDn), [], []) ∧
    readKey [] [.data 27, .data 91, .data 49, .data 126] = some (.ok (.Move .Home), [], []) ∧
    readKey [] [.data 27, .data 91, .data 55, .data 126] = some (.ok (.Move .Home), [], []) ∧
    readKey [] [.data 27, .data 91, .data 79, .data 72] = some (.ok (.Move .Home), [], []) ∧
    readKey [] [.data 27, .data 91, .data 72] = some (.ok (.Move .Home), [], []) ∧
    readKey [] [.data 27, .data 91, .data 52, .data 126] = some (.ok (.Move .End), [], []) ∧
    readKey [] [.data 27, .data 91, .data 56, .data 126] = some (.ok (.Move .End), [], []) ∧
    readKey [] [.data 27, .data 91, .data 79, .data 70] = some (.ok (.Move .End), [], []) ∧
    readKey [] [.data 27, .data 91, .data 70] = some (.ok (.Move .End), [], []) ∧
    readKey [] [.data 27, .data 91, .data 51, .data 126] = some (.ok .Delete, [], []) ∧
    readKey [] [.data 27] = some (.ok .Escape, [], []) :=
  ⟨rfl, rfl, rfl, rfl, rfl, rfl, rfl, rfl, rfl, rfl, rfl, rfl, rfl, rfl, rfl, rfl⟩

/-- C7: evaluated on the captured attribute set `termiosCS7` (all input,
output and local flag bits set, control flags `CS7` = 32): the echo,
canonical, signal and extended bits of `c_lflag` are cleared; the flow
control, CR-to-LF, break, parity and strip bits of `c_iflag` are cleared;
output post-processing is cleared; `c_cc[VMIN] = 0` and `c_cc[VTIME] = 1`.
But the 8-bit character-size bit is NOT set in the control flags: `c_cflag`
comes out of `enable_raw_mode` unchanged (still 32, so `c_cflag &&& CS8`
is 32, not `CS8` = 48), because the source ORs `CS8` into the OUTPUT flag
word, where the theorem finds it instead. -/
theorem C7_cs8_lands_in_oflag :
    (enable_raw_mode termiosCS7).c_lflag &&& (ECHO ||| ICANON ||| ISIG ||| IEXTEN) = 0 ∧
    (enable_raw_mode termiosCS7).c_iflag &&& (IXON ||| ICRNL ||| BRKINT ||| INPCK ||| ISTRIP) = 0 ∧
    (enable_raw_mode termiosCS7).c_oflag &&& OPOST = 0 ∧
    (enable_raw_mode termiosCS7).c_cc VMIN = 0 ∧
    (enable_raw_mode termiosCS7).c_cc VTIME = 1 ∧
    (enable_raw_mode termiosCS7).c_cflag = termiosCS7.c_cflag ∧
    (enable_raw_mode termiosCS7).c_cflag &&& CS8 = 32 ∧
    (enable_raw_mode termiosCS7).c_oflag &&& CS8 = CS8 := by
  refine ⟨?_, ?_, ?_, rfl, rfl, rfl, ?_, ?_⟩ <;> decide

/-- C8: over every session of facade operations started from a fresh
`Terminal` (captured attributes `attrs`), the `orig_termios` field is never
rewritten; the destructor hands exactly `attrs` to the OS when `tcsetattr`
succeeds; and when it fails the destructor panics (`none`) rather than
ignoring the failure.  In particular entering raw mode and then restoring
reapplies every original bit pattern unchanged. -/
theorem C8_orig_never_mutated (attrs : Termios) (r c : Nat) (inp : Input)
    (ops : List TermOp) :
    (runOps (Terminal.new attrs r c, inp) ops).1.orig_termios = attrs ∧
    dropTerminal (runOps (Terminal.new attrs r c, inp) ops).1 true = some attrs ∧
    dropTerminal (runOps (Terminal.new attrs r c, inp) ops).1 false = none := by
  have h := runOps_orig ops (Terminal.new attrs r c, inp)
  exact ⟨h, by simp [dropTerminal, h]; rfl, rfl⟩

/-- C9: every non-escape source byte maps as the claim states: 127 to
`Backspace`, 13 to `Newline`, any other byte below 32 to `Control` of the
character 64 places up (byte 1 is `A`, byte 26 is `Z`), and every byte from
32 up to `Printable` of the byte itself. -/
theorem C9_byte_mapping (b : Byte) (hb : b ≠ 27) :
    readKey [] [.data b] = some (.ok (
      if b = 127 then Key.Backspace
      else if b = 13 then Key.Newline
      else if b < 32 then Key.Control (Char.ofNat (b + 64))
      else Key.Printable b), [], []) := by
  show readKeyF 2 [] [.data b] = _
  simp [readKeyF, popOrRead, acquire, hb, decodeByte]

/-- C9 witness: byte 1 decodes to `Control` of the letter `A`. -/
theorem C9_byte_mapping_witness :
    readKey [] [.data 1] = some (.ok (Key.Control 'A'), [], []) :=
  C9_byte_mapping 1 (by decide)

/-- C2 counterexample: reachable over the public interface from an empty
buffer, the bytes ESC ESC `[` `A` first take the fallback path (which sets
the pushback buffer to `[27, 91, 65]`) and then re-enter `read_key`; the
escape byte 27 is popped, the lookahead PEEKS 91 and 65 out of the buffer and
matches Move Up — but the two drawn bytes are still in the buffer when the
call returns, instead of the empty buffer the claim requires (the documented
pending byte is absent here). -/
theorem C2_match_keeps_drawn_bytes_cex :
    readKey [] [.data 27, .data 27, .data 91, .data 65]
      = some (.ok (.Move .Up), [91, 65], []) ∧
    readKey [] [.data 27, .data 27, .data 91, .data 65]
      ≠ some (.ok (.Move .Up), [], []) := by
  refine ⟨rfl, ?_⟩
  intro h
  rw [show readKey [] [.data 27, .data 27, .data 91, .data 65]
      = some (.ok (.Move .Up), [91, 65], []) from rfl] at h
  simp at h

/-- C2 amended: the lookahead draws pending bytes oldest-pending-first before
fresh reads, but it PEEKS them without removing them — after a successful
table match the buffer still holds every drawn byte, with only the optional
pending byte pushed on top (so a byte consumed by the match can be decoded
again by a later call; only the fallback path resets the buffer). -/
theorem C2_peek_not_consume (buf : List Byte) (inp : Input)
    (seq : List (Option Byte)) (inp2 : Input) (key : Key) (p : Option Byte)
    (h1 : fillSlots 3 buf inp = (.ok seq, inp2))
    (h2 : escMatch seq = some (key, p)) :
    readKey (27 :: buf) inp = some (.ok key, pushPending p buf, inp2) := by
  have hf : List.length (27 :: buf) + List.length inp + 1
      = (List.length buf + List.length inp + 1) + 1 := by
    simp [List.length_cons]; omega
  show readKeyF (List.length (27 :: buf) + List.length inp + 1) (27 :: buf) inp = _
  rw [hf]
  exact readKeyF_esc_match _ _ _ _ _ _ _ h1 h2

/-- C2 witness: popping the escape byte with `[91, 65]` pending matches
Move Up yet returns with `[91, 65]` still in the buffer. -/
theorem C2_peek_not_consume_witness :
    readKey [27, 91, 65] [] = some (.ok (.Move .Up), [91, 65], []) :=
  C2_peek_not_consume [91, 65] [] [some 91, some 65, none] [] (.Move .Up) none
    rfl rfl

/-- C6 counterexample: the continuation ESC `[` after an escape byte matches
no table entry, so the three read bytes 27, 91, 65 are pushed back and
decoding recurses — but the replayed escape byte grabs the following pushed
bytes as lookahead, producing Move Up and then re-decoding 91 and 65, instead
of the independent per-byte sequence Escape, `[`, `A`. -/
theorem C6_replay_cex :
    runKeys 3 [] [.data 27, .data 27, .data 91, .data 65]
      = [.Move .Up, .Printable 91, .Printable 65] ∧
    runKeys 3 [] [.data 27, .data 27, .data 91, .data 65]
      ≠ [.Escape, .Printable 91, .Printable 65] :=
  ⟨by decide, by decide⟩

/-- C6 amended: for a 2-byte continuation that matches no table entry and
whose FIRST byte is not itself the escape byte, the call and its successor
return exactly the two continuation bytes decoded independently (a second
byte equal to ESC decodes independently to `Escape`): nothing is duplicated
or dropped, and the escape byte that opened the fallback is consumed as its
entry point. -/
theorem C6_replay_independent (b1 b2 : Byte) (h1 : b1 ≠ 27)
    (hm : escMatch [some b1, some b2, none] = none) :
    runKeys 2 [] [.data 27, .data b1, .data b2]
      = [decodeByte b1, if b2 = 27 then Key.Escape else decodeByte b2] := by
  have hread1 : readKey [] [.data 27, .data b1, .data b2]
      = some (.ok (decodeByte b1), [b2], []) := by
    show readKeyF 4 [] [.data 27, .data b1, .data b2] = _
    simp [readKeyF, popOrRead, acquire, fillSlots, hm, h1]
  by_cases hb2 : b2 = 27
  · subst hb2
    have hread2 : readKey [27] [] = some (.ok Key.Escape, [], []) := rfl
    simp [runKeys, hread1, hread2]
  · have hread2 : readKey [b2] [] = some (.ok (decodeByte b2), [], []) := by
      show readKeyF 2 [b2] [] = _
      simp [readKeyF, popOrRead, hb2]
    simp [runKeys, hread1, hread2, hb2]

/-- C6 witness: ESC `[` `Z` matches nothing; the two continuation bytes come
back as the printables `[` and `Z`. -/
theorem C6_replay_independent_witness :
    runKeys 2 [] [.data 27, .data 91, .data 90]
      = [Key.Printable 91, Key.Printable 90] :=
  C6_replay_independent 91 90 (by decide) rfl

/-- C10 counterexample: when the stream ends with no byte ever delivered —
immediately, or after timeout-only reads — the source-byte poll loop never
returns (`none` models the loop spinning on reads that keep yielding no
byte), instead of stopping with a surfaced read failure as the claim
states. -/
theorem C10_eof_spins_cex :
    readKey [] [] = none ∧ readKey [] [.timeout, .timeout, .timeout] = none :=
  ⟨rfl, rfl⟩

/-- C10 amended: the poll loop retries timeouts; it returns the first byte
that arrives (here decoded as a key) and surfaces a read error as an
`IoError`, but when the stream ends without delivering either it polls
forever (`none`) rather than surfacing a failure. -/
theorem C10_poll_retries (n : Nat) (b : Byte) (rest : Input) (hb : b ≠ 27) :
    readKey [] (List.replicate n .timeout) = none ∧
    readKey [] (List.replicate n .timeout ++ [.data b])
      = some (.ok (decodeByte b), [], []) ∧
    readKey [] (List.replicate n .timeout ++ .rerr :: rest)
      = some (.error (), [], rest) := by
  refine ⟨?_, ?_, ?_⟩
  · simp [readKey, readKeyF, popOrRead, acquire_replicate_none]
  · simp [readKey, readKeyF, popOrRead, acquire_replicate, acquire, hb]
  · simp [readKey, readKeyF, popOrRead, acquire_replicate, acquire]

/-- C10 witness: two timeouts then a byte, an error, or nothing. -/
theorem C10_poll_retries_witness :
    readKey [] [.timeout, .timeout] = none ∧
    readKey [] [.timeout, .timeout, .data 65]
      = some (.ok (Key.Printable 65), [], []) ∧
    readKey [] [.timeout, .timeout, .rerr, .timeout]
      = some (.error (), [], [.timeout]) :=
  C10_poll_retries 2 65 [.timeout] (by decide)
